import Mathlib

/-!
# Button / LED toggle firmware (`src/main.c`)

A shallow embedding of the three C functions of `main.c`:

* `button_pressed` : the rising-edge detector, with its function-static `last_state`;
* `toggle_led`     : the output toggle, with its function-static `led_state`;
* `app_main`       : the setup followed by the polling loop.

The two function-static `int`s become fields of an explicit state record that is
passed through every call.  Calls to the external collaborators (`printf`, the
GPIO driver, `vTaskDelay`) are recorded, in program order, in a trace that is a
third field of the same record.  The value returned by `gpio_get_level` is the
input of the environment: one sample per loop iteration.

C `int` values are modelled by `Int`; no arithmetic is performed on them, only
tests against zero, so no overflow can occur.
-/

namespace ButtonLed

/-! ## Constants (`#define`s of `main.c`) -/

/-- The button line: `#define BUTTON_PIN 4`. -/
def BUTTON_PIN : Nat := 4

/-- The LED line: `#define LED_PIN 5`. -/
def LED_PIN : Nat := 5

/-- The anti-bounce delay in milliseconds: `#define DEBOUNCE_DELAY_MS 50`. -/
def DEBOUNCE_DELAY_MS : Nat := 50

/-! ## External collaborators -/

/-- The direction constants of `driver/gpio.h`. -/
inductive gpio_mode_t where
  | GPIO_MODE_DISABLE
  | GPIO_MODE_INPUT
  | GPIO_MODE_OUTPUT
  | GPIO_MODE_OUTPUT_OD
  | GPIO_MODE_INPUT_OUTPUT_OD
  | GPIO_MODE_INPUT_OUTPUT
  deriving DecidableEq, Repr

/-- The bias constants of `driver/gpio.h`. -/
inductive gpio_pull_mode_t where
  | GPIO_PULLUP_ONLY
  | GPIO_PULLDOWN_ONLY
  | GPIO_PULLUP_PULLDOWN
  | GPIO_FLOATING
  deriving DecidableEq, Repr

/-- One call to an external collaborator, with the arguments passed at the call
site.  For `gpio_get_level` the second component is the value the call returned.
For `printf` the component is the text written to the console (the format string
with its arguments substituted). -/
inductive Event where
  | printf (text : List Char)
  | gpio_set_direction (pin : Nat) (mode : gpio_mode_t)
  | gpio_set_pull_mode (pin : Nat) (pull : gpio_pull_mode_t)
  | gpio_set_level (pin : Nat) (level : Int)
  | gpio_get_level (pin : Nat) (value : Int)
  | vTaskDelay (ticks : Nat)
  deriving DecidableEq, Repr

/-! ## State -/

/-- The persistent state of the program: the two function-static variables and
the trace of external calls made so far (oldest first). -/
structure State where
  /-- The variable `static int last_state` of `button_pressed`. -/
  last_state : Int
  /-- The variable `static int led_state` of `toggle_led`. -/
  led_state : Int
  /-- The external calls made so far, in program order. -/
  trace : List Event
  deriving DecidableEq, Repr

/-- The state at process start: both statics are initialised to `0`. -/
def State.initial : State := ⟨0, 0, []⟩

/-- Record one external call at the end of the trace. -/
def State.emit (st : State) (e : Event) : State :=
  ⟨st.last_state, st.led_state, st.trace ++ [e]⟩

/-! ## C operators -/

/-- The truth value of a C `int` in a condition: non-zero is true. -/
def truthy (x : Int) : Bool := decide (x ≠ 0)

/-- The C operator `!x`: `1` when `x` is zero, `0` otherwise. -/
def cnot (x : Int) : Int := if x = 0 then 1 else 0

/-! ## The functions of `main.c` -/

/-- The function `int button_pressed(int state)`: returns the value of `ret` and
the state after the call. -/
def button_pressed (state : Int) (st : State) : Int × State :=
  let ret : Int := 0
  let ret : Int := if truthy (cnot st.last_state) && truthy state then 1 else ret
  (ret, ⟨state, st.led_state, st.trace⟩)

/-- The function `void toggle_led()`. -/
def toggle_led (st : State) : State :=
  let led_state := cnot st.led_state
  State.emit ⟨st.last_state, led_state, st.trace⟩ (Event.gpio_set_level LED_PIN led_state)

/-- The text printed by `printf("Button pressed! LED toggled.\n")`. -/
def msg_pressed : List Char := "Button pressed! LED toggled.\n".toList

/-- The first two steps of an iteration of the `while(1)` loop of `app_main`:
`button_state = gpio_get_level(BUTTON_PIN)` followed by the call
`button_pressed(button_state)`.  Returns the value the detector returned and the
state after the call. -/
def loop_poll (st : State) (button_state : Int) : Int × State :=
  button_pressed button_state (st.emit (Event.gpio_get_level BUTTON_PIN button_state))

/-- One iteration of the `while(1)` loop of `app_main`; `button_state` is the value
returned by `gpio_get_level(BUTTON_PIN)` in this iteration, and `pdMS_TO_TICKS` is
the tick conversion of the scheduler's headers. -/
def loop_body (pdMS_TO_TICKS : Nat → Nat) (st : State) (button_state : Int) : State :=
  let r := loop_poll st button_state
  let st := if truthy r.1 then (toggle_led r.2).emit (Event.printf msg_pressed) else r.2
  st.emit (Event.vTaskDelay (pdMS_TO_TICKS DEBOUNCE_DELAY_MS))

/-- The text printed by `printf("ESP32 Starting...\n")`. -/
def msg_starting : List Char := "ESP32 Starting...\n".toList

/-- The text printed by
`printf("GPIO configured. Press button on GPIO %d to light up LED on GPIO %d\n", BUTTON_PIN, LED_PIN)`. -/
def msg_configured : List Char :=
  "GPIO configured. Press button on GPIO ".toList ++ (Nat.repr BUTTON_PIN).toList
    ++ " to light up LED on GPIO ".toList ++ (Nat.repr LED_PIN).toList ++ "\n".toList

/-- The statements of `app_main` that precede the `while(1)` loop. -/
def app_main_setup (st : State) : State :=
  let st := st.emit (Event.printf msg_starting)
  let st := st.emit (Event.gpio_set_direction LED_PIN gpio_mode_t.GPIO_MODE_OUTPUT)
  let st := st.emit (Event.gpio_set_direction BUTTON_PIN gpio_mode_t.GPIO_MODE_INPUT)
  let st := st.emit (Event.gpio_set_pull_mode BUTTON_PIN gpio_pull_mode_t.GPIO_PULLDOWN_ONLY)
  st.emit (Event.printf msg_configured)

/-- The `while(1)` loop of `app_main`, run for as many iterations as there are
samples: iteration `i` reads `samples[i]` from the button line. -/
def run_loop (pdMS_TO_TICKS : Nat → Nat) (st : State) (samples : List Int) : State :=
  samples.foldl (loop_body pdMS_TO_TICKS) st

/-- The function `void app_main(void)` from process start, observed after the
iterations that consume `samples`. -/
def app_main (pdMS_TO_TICKS : Nat → Nat) (samples : List Int) : State :=
  run_loop pdMS_TO_TICKS (app_main_setup State.initial) samples

/-! ## Observations used by the specification -/

/-- Successive calls `button_pressed(s)` for the samples of a list, first to last:
the returned values, in call order, and the state after the last call. -/
def feed : State → List Int → List Int × State
  | st, [] => ([], st)
  | st, s :: rest =>
    let r := button_pressed s st
    let t := feed r.2 rest
    (r.1 :: t.1, t.2)

/-- The sample stored in the detector when call number `i` of a feed begins, the
detector holding `p` before the first call. -/
def stored_before (p : Int) (ss : List Int) : Nat → Int
  | 0 => p
  | j + 1 => ss.getD j 0

/-- The values returned by the detector in the successive iterations of the loop. -/
def loop_fired (pdMS_TO_TICKS : Nat → Nat) : State → List Int → List Int
  | _, [] => []
  | st, s :: rest => (loop_poll st s).1 :: loop_fired pdMS_TO_TICKS (loop_body pdMS_TO_TICKS st s) rest

/-- The number of calls of a list of detector results that fired. -/
def fire_count (rets : List Int) : Nat := rets.countP truthy

/-- The events one loop iteration adds to the trace. -/
def iter_events (pdMS_TO_TICKS : Nat → Nat) (st : State) (button_state : Int) : List Event :=
  (loop_body pdMS_TO_TICKS st button_state).trace.drop st.trace.length

/-- The writes to output lines found in a trace: `(pin, level)` per `gpio_set_level`. -/
def level_writes : List Event → List (Nat × Int)
  | [] => []
  | Event.gpio_set_level pin level :: rest => (pin, level) :: level_writes rest
  | _ :: rest => level_writes rest

/-- The delays found in a trace: the tick count of each `vTaskDelay`. -/
def delays : List Event → List Nat
  | [] => []
  | Event.vTaskDelay ticks :: rest => ticks :: delays rest
  | _ :: rest => delays rest

/-- The console text of a trace: the texts of its `printf` calls, concatenated. -/
def console : List Event → List Char
  | [] => []
  | Event.printf text :: rest => text ++ console rest
  | _ :: rest => console rest

/-- The number of lines of a console text: its newline characters. -/
def line_count (text : List Char) : Nat := text.count (Char.ofNat 10)

/-- The text `t` written `n` times in a row. -/
def repeat_text : Nat → List Char → List Char
  | 0, _ => []
  | n + 1, t => t ++ repeat_text n t

/-- A tick conversion for a 100 Hz tick, used to evaluate the model. -/
def ticks_100hz (ms : Nat) : Nat := ms * 100 / 1000

/-! ## Basic facts about the detector and the toggle -/

theorem truthy_iff (x : Int) : truthy x = true ↔ x ≠ 0 := by
  simp [truthy]

theorem truthy_cnot (x : Int) : truthy (cnot x) = !truthy x := by
  by_cases h : x = 0 <;> simp [truthy, cnot, h]

theorem button_pressed_ret (s : Int) (st : State) :
    (button_pressed s st).1 = if st.last_state = 0 ∧ s ≠ 0 then 1 else 0 := by
  by_cases h : st.last_state = 0 <;> by_cases hs : s = 0 <;>
    simp [button_pressed, truthy, cnot, h, hs]

theorem button_pressed_state (s : Int) (st : State) :
    (button_pressed s st).2 = ⟨s, st.led_state, st.trace⟩ := rfl

theorem button_pressed_truthy (s : Int) (st : State) :
    truthy (button_pressed s st).1 = true ↔ (st.last_state = 0 ∧ s ≠ 0) := by
  rw [button_pressed_ret]
  by_cases h : st.last_state = 0 ∧ s ≠ 0 <;> simp [h, truthy]

/-! ## Claims about the detector -/

/-- C1: for every stored previous sample and every current sample, `button_pressed`
returns `1` exactly when the previous sample is false (zero) and the current one is
true (non-zero), and returns `0` in each of the three other combinations. -/
theorem button_pressed_rising_edge (st : State) (s : Int) :
    ((button_pressed s st).1 = 1 ↔ (st.last_state = 0 ∧ s ≠ 0)) ∧
    ((button_pressed s st).1 = 0 ↔
      ((st.last_state = 0 ∧ s = 0) ∨ (st.last_state ≠ 0 ∧ s ≠ 0) ∨ (st.last_state ≠ 0 ∧ s = 0))) := by
  rw [button_pressed_ret]
  by_cases h : st.last_state = 0 <;> by_cases hs : s = 0 <;> simp [h, hs]

theorem feed_length (st : State) (ss : List Int) : (feed st ss).1.length = ss.length := by
  induction ss generalizing st with
  | nil => rfl
  | cons s rest ih => simp [feed, ih]

theorem feed_getD (st : State) (ss : List Int) (i : Nat) (h : i < ss.length) :
    (feed st ss).1.getD i 0 =
      if stored_before st.last_state ss i = 0 ∧ ss.getD i 0 ≠ 0 then 1 else 0 := by
  induction ss generalizing st i with
  | nil => simp at h
  | cons s rest ih =>
    cases i with
    | zero => simp [feed, stored_before, button_pressed_ret]
    | succ j =>
      have hj : j < rest.length := by simpa using h
      have key := ih (button_pressed s st).2 j hj
      have hfeed : (feed st (s :: rest)).1.getD (j + 1) 0 =
          (feed (button_pressed s st).2 rest).1.getD j 0 := by
        simp [feed]
      rw [hfeed, key, button_pressed_state]
      cases j with
      | zero => simp [stored_before]
      | succ k => simp [stored_before]

/-- C2: feeding any sample sequence to `button_pressed`, one sample per call, from the
initial state (`last_state = 0`): call `0` fires iff `s_0` is true, and call `i > 0`
fires iff `s_{i-1}` is false and `s_i` is true.  On `[0,0,1,1,0,1]` the calls fire at
indices 2 and 5 only; on `[1,0,1]` they fire at indices 0 and 2. -/
theorem feed_fires_on_rising_edges (samples : List Int) (i : Nat) (h : i < samples.length) :
    (feed State.initial samples).1.length = samples.length ∧
    (truthy ((feed State.initial samples).1.getD i 0) = true ↔
      ((i = 0 ∧ samples.getD 0 0 ≠ 0) ∨
       (0 < i ∧ samples.getD (i - 1) 0 = 0 ∧ samples.getD i 0 ≠ 0))) ∧
    (feed State.initial [0, 0, 1, 1, 0, 1]).1 = [0, 0, 1, 0, 0, 1] ∧
    (feed State.initial [1, 0, 1]).1 = [1, 0, 1] := by
  refine ⟨feed_length _ _, ?_, by decide, by decide⟩
  rw [feed_getD _ _ _ h]
  cases i with
  | zero =>
    by_cases hs : samples.getD 0 0 = 0 <;> simp [stored_before, State.initial, truthy, hs]
  | succ j =>
    by_cases hp : samples.getD j 0 = 0 <;> by_cases hs : samples.getD (j + 1) 0 = 0 <;>
      simp [stored_before, truthy, hp, hs]

/-- The rising-edge characterisation at a concrete input: call 2 of the sequence
`[0, 0, 1, 1, 0, 1]` fed from the initial state. -/
theorem feed_fires_on_rising_edges_witness :
    2 < [(0 : Int), 0, 1, 1, 0, 1].length ∧
    ((feed State.initial [0, 0, 1, 1, 0, 1]).1.length = [(0 : Int), 0, 1, 1, 0, 1].length ∧
    (truthy ((feed State.initial [0, 0, 1, 1, 0, 1]).1.getD 2 0) = true ↔
      ((2 = 0 ∧ [(0 : Int), 0, 1, 1, 0, 1].getD 0 0 ≠ 0) ∨
       (0 < 2 ∧ [(0 : Int), 0, 1, 1, 0, 1].getD (2 - 1) 0 = 0 ∧
          [(0 : Int), 0, 1, 1, 0, 1].getD 2 0 ≠ 0))) ∧
    (feed State.initial [0, 0, 1, 1, 0, 1]).1 = [0, 0, 1, 0, 0, 1] ∧
    (feed State.initial [1, 0, 1]).1 = [1, 0, 1]) :=
  ⟨by decide, feed_fires_on_rising_edges [0, 0, 1, 1, 0, 1] 2 (by decide)⟩

/-! ## One iteration of the loop -/

theorem loop_poll_ret (st : State) (s : Int) :
    (loop_poll st s).1 = if st.last_state = 0 ∧ s ≠ 0 then 1 else 0 := by
  simp [loop_poll, button_pressed_ret, State.emit]

theorem loop_poll_state (st : State) (s : Int) :
    (loop_poll st s).2 = ⟨s, st.led_state, st.trace ++ [Event.gpio_get_level BUTTON_PIN s]⟩ := rfl

theorem loop_body_fired (pd : Nat → Nat) (st : State) (s : Int)
    (h : truthy (loop_poll st s).1 = true) :
    loop_body pd st s = ⟨s, cnot st.led_state,
      st.trace ++ [Event.gpio_get_level BUTTON_PIN s, Event.gpio_set_level LED_PIN (cnot st.led_state),
        Event.printf msg_pressed, Event.vTaskDelay (pd DEBOUNCE_DELAY_MS)]⟩ := by
  simp [loop_body, h, loop_poll_state, toggle_led, State.emit]

theorem loop_body_quiet (pd : Nat → Nat) (st : State) (s : Int)
    (h : truthy (loop_poll st s).1 = false) :
    loop_body pd st s = ⟨s, st.led_state,
      st.trace ++ [Event.gpio_get_level BUTTON_PIN s, Event.vTaskDelay (pd DEBOUNCE_DELAY_MS)]⟩ := by
  simp [loop_body, h, loop_poll_state, State.emit]

theorem iter_events_fired (pd : Nat → Nat) (st : State) (s : Int)
    (h : truthy (loop_poll st s).1 = true) :
    iter_events pd st s =
      [Event.gpio_get_level BUTTON_PIN s, Event.gpio_set_level LED_PIN (cnot st.led_state),
        Event.printf msg_pressed, Event.vTaskDelay (pd DEBOUNCE_DELAY_MS)] := by
  simp [iter_events, loop_body_fired pd st s h]

theorem iter_events_quiet (pd : Nat → Nat) (st : State) (s : Int)
    (h : truthy (loop_poll st s).1 = false) :
    iter_events pd st s =
      [Event.gpio_get_level BUTTON_PIN s, Event.vTaskDelay (pd DEBOUNCE_DELAY_MS)] := by
  simp [iter_events, loop_body_quiet pd st s h]

theorem loop_body_trace (pd : Nat → Nat) (st : State) (s : Int) :
    (loop_body pd st s).trace = st.trace ++ iter_events pd st s := by
  cases h : truthy (loop_poll st s).1
  · rw [iter_events_quiet pd st s h, loop_body_quiet pd st s h]
  · rw [iter_events_fired pd st s h, loop_body_fired pd st s h]

theorem loop_body_led_state (pd : Nat → Nat) (st : State) (s : Int) :
    (loop_body pd st s).led_state =
      if truthy (loop_poll st s).1 = true then cnot st.led_state else st.led_state := by
  cases h : truthy (loop_poll st s).1
  · simp [loop_body_quiet pd st s h]
  · simp [loop_body_fired pd st s h]

theorem loop_body_last_state (pd : Nat → Nat) (st : State) (s : Int) :
    (loop_body pd st s).last_state = s := by
  cases h : truthy (loop_poll st s).1
  · simp [loop_body_quiet pd st s h]
  · simp [loop_body_fired pd st s h]

theorem run_loop_cons (pd : Nat → Nat) (st : State) (s : Int) (rest : List Int) :
    run_loop pd st (s :: rest) = run_loop pd (loop_body pd st s) rest := rfl

theorem fire_count_cons (r : Int) (rets : List Int) :
    fire_count (r :: rets) = fire_count rets + if truthy r = true then 1 else 0 := by
  simp [fire_count, List.countP_cons]

/-! ## Toggle parity -/

theorem run_loop_led_parity (pd : Nat → Nat) (st : State) (ss : List Int) :
    truthy (run_loop pd st ss).led_state =
      (truthy st.led_state != decide (fire_count (loop_fired pd st ss) % 2 = 1)) := by
  induction ss generalizing st with
  | nil => simp [run_loop, loop_fired, fire_count]
  | cons s rest ih =>
    rw [run_loop_cons, ih, loop_fired, fire_count_cons, loop_body_led_state]
    rcases Nat.mod_two_eq_zero_or_one
      (fire_count (loop_fired pd (loop_body pd st s) rest)) with h0 | h1
    · cases hf : truthy (loop_poll st s).1
      · simp [h0]
      · have : (fire_count (loop_fired pd (loop_body pd st s) rest) + 1) % 2 = 1 := by omega
        simp [h0, this, truthy_cnot]
    · cases hf : truthy (loop_poll st s).1
      · simp [h1]
      · have : (fire_count (loop_fired pd (loop_body pd st s) rest) + 1) % 2 = 0 := by omega
        simp [h1, this, truthy_cnot]

/-- C3: toggle parity.  Running any sample sequence through the loop body from the
initial state (`last_state = 0`, `led_state = 0`), alone or after the setup of
`app_main`, the final `led_state` is true exactly when the number of polls on which
`button_pressed` fired is odd.  `[0,1,0,1,0,1]` gives three toggles and a true final
state; `[0,0,1,1,0,1]` gives two toggles and a false final state. -/
theorem toggle_parity (pd : Nat → Nat) (samples : List Int) :
    (truthy (run_loop pd State.initial samples).led_state = true ↔
      fire_count (loop_fired pd State.initial samples) % 2 = 1) ∧
    (truthy (app_main pd samples).led_state = true ↔
      fire_count (loop_fired pd (app_main_setup State.initial) samples) % 2 = 1) ∧
    (fire_count (loop_fired pd State.initial [0, 1, 0, 1, 0, 1]) = 3 ∧
      (run_loop pd State.initial [0, 1, 0, 1, 0, 1]).led_state = 1) ∧
    (fire_count (loop_fired pd State.initial [0, 0, 1, 1, 0, 1]) = 2 ∧
      (run_loop pd State.initial [0, 0, 1, 1, 0, 1]).led_state = 0) := by
  refine ⟨?_, ?_, ⟨rfl, rfl⟩, ⟨rfl, rfl⟩⟩
  · rw [run_loop_led_parity]
    simp [State.initial, truthy]
  · rw [app_main, run_loop_led_parity]
    simp [State.initial, truthy, app_main_setup, State.emit]

/-- C4: no missed or doubled toggle.  For every state and sample, one loop iteration
negates `led_state` and makes exactly one write to the LED line when the detector
fired on that sample, and leaves `led_state` unchanged and makes no write when it
did not. -/
theorem loop_body_flips_once_iff_fired (pd : Nat → Nat) (st : State) (s : Int) :
    (loop_body pd st s).led_state =
      (if truthy (loop_poll st s).1 = true then cnot st.led_state else st.led_state) ∧
    truthy (loop_body pd st s).led_state =
      (if truthy (loop_poll st s).1 = true then !truthy st.led_state else truthy st.led_state) ∧
    (loop_body pd st s).trace = st.trace ++ iter_events pd st s ∧
    level_writes (iter_events pd st s) =
      (if truthy (loop_poll st s).1 = true then [(LED_PIN, cnot st.led_state)] else []) := by
  refine ⟨loop_body_led_state pd st s, ?_, loop_body_trace pd st s, ?_⟩
  · rw [loop_body_led_state]
    cases hf : truthy (loop_poll st s).1 <;> simp [truthy_cnot]
  · cases hf : truthy (loop_poll st s).1
    · simp [iter_events_quiet pd st s hf, level_writes]
    · simp [iter_events_fired pd st s hf, level_writes]

/-! ## The stored sample -/

theorem feed_last_state (st : State) (ss : List Int) :
    (feed st ss).2.last_state = ss.getLast?.getD st.last_state := by
  induction ss generalizing st with
  | nil => simp [feed]
  | cons s rest ih =>
    have step : (feed st (s :: rest)).2 = (feed (button_pressed s st).2 rest).2 := rfl
    rw [step, ih, button_pressed_state]
    cases rest with
    | nil => simp
    | cons t more =>
      simp [List.getLast?_cons_cons, List.getLast?_eq_getLast _ (List.cons_ne_nil t more)]

/-- C5: for every stored previous sample and every current sample `s`, after
`button_pressed(s)` returns the stored sample `last_state` equals `s`, whether or not
the call fired; after any non-empty run of calls it equals the last sample fed. -/
theorem button_pressed_stores_sample (st : State) (s : Int) (ss : List Int) :
    (button_pressed s st).2.last_state = s ∧
    (feed st (ss ++ [s])).2.last_state = s := by
  refine ⟨rfl, ?_⟩
  rw [feed_last_state]
  simp

/-! ## The toggle -/

/-- C6: for every stored `led_state`, `toggle_led` stores the logical negation of the
previous value and makes exactly one external call, `gpio_set_level` on `LED_PIN = 5`
with that new value. -/
theorem toggle_led_negates_and_writes (st : State) :
    (toggle_led st).led_state = cnot st.led_state ∧
    truthy (toggle_led st).led_state = !truthy st.led_state ∧
    (toggle_led st).trace = st.trace ++ [Event.gpio_set_level 5 (toggle_led st).led_state] ∧
    level_writes ((toggle_led st).trace.drop st.trace.length) = [(5, (toggle_led st).led_state)] := by
  refine ⟨rfl, truthy_cnot _, rfl, ?_⟩
  simp [toggle_led, State.emit, level_writes, LED_PIN]

/-! ## Repeated and held samples -/

/-- C7: idempotence of no-edge.  For every stored previous sample and every sample
value `v`, the second of two consecutive calls `button_pressed(v)` returns `0`. -/
theorem button_pressed_same_sample_twice (st : State) (v : Int) :
    (button_pressed v (button_pressed v st).2).1 = 0 := by
  rw [button_pressed_ret, button_pressed_state]
  by_cases hv : v = 0 <;> simp [hv]

theorem feed_congr (st st' : State) (ss : List Int) (h : st.last_state = st'.last_state) :
    (feed st ss).1 = (feed st' ss).1 := by
  cases ss with
  | nil => rfl
  | cons s rest =>
    have hr : (button_pressed s st).1 = (button_pressed s st').1 := by
      rw [button_pressed_ret, button_pressed_ret, h]
    have ht : (feed (button_pressed s st).2 rest).1 = (feed (button_pressed s st').2 rest).1 :=
      feed_congr _ _ rest rfl
    simp only [feed, hr, ht]

theorem loop_fired_eq_feed (pd : Nat → Nat) (st : State) (ss : List Int) :
    loop_fired pd st ss = (feed st ss).1 := by
  induction ss generalizing st with
  | nil => rfl
  | cons s rest ih =>
    have hr : (loop_poll st s).1 = (button_pressed s st).1 := by
      rw [loop_poll_ret, button_pressed_ret]
    have ht : (feed (loop_body pd st s) rest).1 = (feed (button_pressed s st).2 rest).1 :=
      feed_congr _ _ rest (loop_body_last_state pd st s)
    simp only [loop_fired, feed, ih, hr, ht]

theorem feed_held (st : State) (ss : List Int) (hall : ∀ s ∈ ss, s ≠ 0) (hp : st.last_state ≠ 0) :
    (feed st ss).1 = List.replicate ss.length 0 := by
  induction ss generalizing st with
  | nil => rfl
  | cons s rest ih =>
    have hs : s ≠ 0 := hall s (by simp)
    have hrest : ∀ t ∈ rest, t ≠ 0 := fun t ht => hall t (by simp [ht])
    have ht := ih (button_pressed s st).2 hrest (by simpa [button_pressed_state] using hs)
    simp only [feed, ht, button_pressed_ret, List.length_cons, List.replicate_succ]
    simp [hp]

theorem fire_count_replicate_zero (n : Nat) : fire_count (List.replicate n 0) = 0 := by
  simp [fire_count, truthy]

theorem level_writes_append (a b : List Event) :
    level_writes (a ++ b) = level_writes a ++ level_writes b := by
  induction a with
  | nil => rfl
  | cons e rest ih => cases e <;> simp [level_writes, ih]

theorem run_loop_level_writes (pd : Nat → Nat) (st : State) (ss : List Int) :
    (level_writes (run_loop pd st ss).trace).length =
      (level_writes st.trace).length + fire_count (loop_fired pd st ss) := by
  induction ss generalizing st with
  | nil => simp [run_loop, loop_fired, fire_count]
  | cons s rest ih =>
    rw [run_loop_cons, ih, loop_fired, fire_count_cons, loop_body_trace, level_writes_append]
    cases hf : truthy (loop_poll st s).1
    · simp [iter_events_quiet pd st s hf, level_writes]
    · simp [iter_events_fired pd st s hf, level_writes]
      omega

/-- C8: held button triggers once.  For every starting state and every non-empty run
of pressed (non-zero) samples, `button_pressed` can fire only on the first of them,
and fires there exactly when the stored previous sample was released (zero); the loop
fed those samples makes the same detections and writes the LED line at most once. -/
theorem held_button_fires_once (pd : Nat → Nat) (st : State) (ss : List Int)
    (hne : ss ≠ []) (hall : ∀ s ∈ ss, s ≠ 0) :
    (feed st ss).1 = (if st.last_state = 0 then 1 else 0) :: List.replicate (ss.length - 1) 0 ∧
    fire_count (feed st ss).1 = (if st.last_state = 0 then 1 else 0) ∧
    fire_count (feed st ss).1 ≤ 1 ∧
    loop_fired pd st ss = (feed st ss).1 ∧
    (level_writes (run_loop pd st ss).trace).length ≤ (level_writes st.trace).length + 1 := by
  have hshape : (feed st ss).1 =
      (if st.last_state = 0 then 1 else 0) :: List.replicate (ss.length - 1) 0 := by
    cases ss with
    | nil => exact absurd rfl hne
    | cons s rest =>
      have hs : s ≠ 0 := hall s (by simp)
      have hrest : ∀ t ∈ rest, t ≠ 0 := fun t ht => hall t (by simp [ht])
      have ht := feed_held (button_pressed s st).2 rest hrest
        (by simpa [button_pressed_state] using hs)
      simp only [feed, ht, button_pressed_ret]
      simp [hs]
  have hcount : fire_count (feed st ss).1 = (if st.last_state = 0 then 1 else 0) := by
    rw [hshape, fire_count_cons, fire_count_replicate_zero]
    by_cases hp : st.last_state = 0 <;> simp [hp, truthy]
  have hle : fire_count (feed st ss).1 ≤ 1 := by
    rw [hcount]
    split <;> omega
  refine ⟨hshape, hcount, hle, loop_fired_eq_feed pd st ss, ?_⟩
  rw [run_loop_level_writes, loop_fired_eq_feed]
  omega

/-- The held-button property at a concrete input: three pressed samples fed from the
initial state. -/
theorem held_button_fires_once_witness :
    ([1, 1, 1] : List Int) ≠ [] ∧ (∀ s ∈ ([1, 1, 1] : List Int), s ≠ 0) ∧
    ((feed State.initial [1, 1, 1]).1 =
        (if State.initial.last_state = 0 then 1 else 0) ::
          List.replicate (([1, 1, 1] : List Int).length - 1) 0 ∧
      fire_count (feed State.initial [1, 1, 1]).1 =
        (if State.initial.last_state = 0 then 1 else 0) ∧
      fire_count (feed State.initial [1, 1, 1]).1 ≤ 1 ∧
      loop_fired ticks_100hz State.initial [1, 1, 1] = (feed State.initial [1, 1, 1]).1 ∧
      (level_writes (run_loop ticks_100hz State.initial [1, 1, 1]).trace).length ≤
        (level_writes State.initial.trace).length + 1) :=
  ⟨by decide, by decide,
    held_button_fires_once ticks_100hz State.initial [1, 1, 1] (by decide) (by decide)⟩

/-! ## The delay -/

theorem delays_append (a b : List Event) : delays (a ++ b) = delays a ++ delays b := by
  induction a with
  | nil => rfl
  | cons e rest ih => cases e <;> simp [delays, ih]

/-- C9: mandatory yield.  For every state and sample, fired or not, the events of one
loop iteration end with the call `vTaskDelay(pdMS_TO_TICKS(DEBOUNCE_DELAY_MS))`, with
`DEBOUNCE_DELAY_MS = 50`, and that call is the only `vTaskDelay` of the iteration. -/
theorem loop_body_delays_once_last (pd : Nat → Nat) (st : State) (s : Int) :
    (loop_body pd st s).trace = st.trace ++ iter_events pd st s ∧
    (iter_events pd st s).getLast? = some (Event.vTaskDelay (pd 50)) ∧
    delays (iter_events pd st s) = [pd 50] ∧
    DEBOUNCE_DELAY_MS = 50 := by
  refine ⟨loop_body_trace pd st s, ?_, ?_, rfl⟩
  · cases hf : truthy (loop_poll st s).1
    · simp [iter_events_quiet pd st s hf, DEBOUNCE_DELAY_MS]
    · simp [iter_events_fired pd st s hf, DEBOUNCE_DELAY_MS]
  · cases hf : truthy (loop_poll st s).1
    · simp [iter_events_quiet pd st s hf, delays, DEBOUNCE_DELAY_MS]
    · simp [iter_events_fired pd st s hf, delays, DEBOUNCE_DELAY_MS]

/-! ## Console output -/

theorem console_append (a b : List Event) : console (a ++ b) = console a ++ console b := by
  induction a with
  | nil => rfl
  | cons e rest ih => cases e <;> simp [console, ih]

theorem line_count_append (a b : List Char) :
    line_count (a ++ b) = line_count a + line_count b := by
  simp [line_count]

theorem line_count_msg_pressed : line_count msg_pressed = 1 := by decide

theorem line_count_repeat_pressed (n : Nat) : line_count (repeat_text n msg_pressed) = n := by
  induction n with
  | zero => rfl
  | succ k ih => rw [repeat_text, line_count_append, ih, line_count_msg_pressed]; omega

theorem run_loop_console (pd : Nat → Nat) (st : State) (ss : List Int) :
    console (run_loop pd st ss).trace =
      console st.trace ++ repeat_text (fire_count (loop_fired pd st ss)) msg_pressed := by
  induction ss generalizing st with
  | nil => simp [run_loop, loop_fired, fire_count, repeat_text]
  | cons s rest ih =>
    rw [run_loop_cons, ih, loop_fired, fire_count_cons, loop_body_trace, console_append]
    cases hf : truthy (loop_poll st s).1
    · simp [iter_events_quiet pd st s hf, console]
    · simp [iter_events_fired pd st s hf, console, repeat_text]

/-- C10, as stated, fails: with no poll at all the console already holds two lines,
not `1 + 0`. -/
theorem console_lines_not_one_plus_fired :
    line_count (console (app_main ticks_100hz []).trace) ≠
      1 + fire_count (loop_fired ticks_100hz (app_main_setup State.initial) []) := by
  decide

/-- C10, amended: the console output of `app_main` is two lines at startup, the banner
`ESP32 Starting...` and then the line announcing readiness and the pin numbers 4 and
5, followed by one line per poll on which the detector fired; the number of lines
printed is 2 plus the number of such polls. -/
theorem console_lines_two_plus_fired (pd : Nat → Nat) (samples : List Int) :
    console (app_main pd samples).trace =
      msg_starting ++ msg_configured ++
        repeat_text (fire_count (loop_fired pd (app_main_setup State.initial) samples)) msg_pressed ∧
    line_count (console (app_main pd samples).trace) =
      2 + fire_count (loop_fired pd (app_main_setup State.initial) samples) ∧
    msg_starting = "ESP32 Starting...\n".toList ∧
    msg_configured =
      "GPIO configured. Press button on GPIO 4 to light up LED on GPIO 5\n".toList ∧
    line_count msg_starting = 1 ∧ line_count msg_configured = 1 := by
  have htext : console (app_main pd samples).trace =
      msg_starting ++ msg_configured ++
        repeat_text (fire_count (loop_fired pd (app_main_setup State.initial) samples))
          msg_pressed := by
    rw [app_main, run_loop_console]
    simp [app_main_setup, State.emit, State.initial, console]
  refine ⟨htext, ?_, rfl, by decide, by decide, by decide⟩
  rw [htext, line_count_append, line_count_append, line_count_repeat_pressed]
  have h1 : line_count msg_starting = 1 := by decide
  have h2 : line_count msg_configured = 1 := by decide
  omega

/-! ## Setup -/

theorem run_loop_trace_prefix (pd : Nat → Nat) (st : State) (ss : List Int) :
    ∃ evs, (run_loop pd st ss).trace = st.trace ++ evs := by
  induction ss generalizing st with
  | nil => exact ⟨[], by simp [run_loop]⟩
  | cons s rest ih =>
    obtain ⟨evs, hevs⟩ := ih (loop_body pd st s)
    refine ⟨iter_events pd st s ++ evs, ?_⟩
    rw [run_loop_cons, hevs, loop_body_trace, List.append_assoc]

theorem iter_events_head (pd : Nat → Nat) (st : State) (s : Int) :
    ∃ evs, iter_events pd st s = Event.gpio_get_level BUTTON_PIN s :: evs := by
  cases hf : truthy (loop_poll st s).1
  · exact ⟨_, iter_events_quiet pd st s hf⟩
  · exact ⟨_, iter_events_fired pd st s hf⟩

theorem run_loop_first_read (pd : Nat → Nat) (st : State) (s : Int) (rest : List Int) :
    ∃ evs, (run_loop pd st (s :: rest)).trace =
      st.trace ++ Event.gpio_get_level BUTTON_PIN s :: evs := by
  obtain ⟨evs, hevs⟩ := run_loop_trace_prefix pd (loop_body pd st s) rest
  obtain ⟨tl, htl⟩ := iter_events_head pd st s
  refine ⟨tl ++ evs, ?_⟩
  rw [run_loop_cons, hevs, loop_body_trace, htl]
  simp

theorem app_main_setup_trace :
    (app_main_setup State.initial).trace =
      [Event.printf msg_starting,
       Event.gpio_set_direction 5 gpio_mode_t.GPIO_MODE_OUTPUT,
       Event.gpio_set_direction 4 gpio_mode_t.GPIO_MODE_INPUT,
       Event.gpio_set_pull_mode 4 gpio_pull_mode_t.GPIO_PULLDOWN_ONLY,
       Event.printf msg_configured] := rfl

/-- C11: the setup of `app_main` makes exactly five external calls, all before the
first read of the input line: the banner, `gpio_set_direction(5, GPIO_MODE_OUTPUT)`,
`gpio_set_direction(4, GPIO_MODE_INPUT)`, `gpio_set_pull_mode(4, GPIO_PULLDOWN_ONLY)`
and the readiness line.  It makes no other GPIO configuration call and no write to
the output line, and the call that follows it is the first `gpio_get_level(4)`. -/
theorem app_main_setup_configures (pd : Nat → Nat) (samples : List Int) (s : Int) :
    (app_main_setup State.initial).trace =
      [Event.printf msg_starting,
       Event.gpio_set_direction 5 gpio_mode_t.GPIO_MODE_OUTPUT,
       Event.gpio_set_direction 4 gpio_mode_t.GPIO_MODE_INPUT,
       Event.gpio_set_pull_mode 4 gpio_pull_mode_t.GPIO_PULLDOWN_ONLY,
       Event.printf msg_configured] ∧
    level_writes (app_main_setup State.initial).trace = [] ∧
    (app_main pd samples).trace.take 5 = (app_main_setup State.initial).trace ∧
    ((app_main pd (s :: samples)).trace.drop 5).head? = some (Event.gpio_get_level 4 s) ∧
    LED_PIN = 5 ∧ BUTTON_PIN = 4 := by
  refine ⟨rfl, rfl, ?_, ?_, rfl, rfl⟩
  · obtain ⟨evs, hevs⟩ := run_loop_trace_prefix pd (app_main_setup State.initial) samples
    rw [app_main, hevs, app_main_setup_trace]
    rfl
  · obtain ⟨evs, hevs⟩ := run_loop_first_read pd (app_main_setup State.initial) s samples
    rw [app_main, hevs, app_main_setup_trace]
    rfl

/-! ## Frame -/

/-- C14: frame.  For every state and sample, `button_pressed` leaves `led_state`
unchanged and makes no external call (so no GPIO write) while it sets `last_state`;
`toggle_led` leaves `last_state` unchanged while it sets `led_state`; the setup of
`app_main` writes neither variable. -/
theorem statics_frame (st : State) (s : Int) :
    ((button_pressed s st).2.led_state = st.led_state ∧
      (button_pressed s st).2.trace = st.trace ∧
      (button_pressed s st).2.last_state = s) ∧
    ((toggle_led st).last_state = st.last_state ∧
      (toggle_led st).led_state = cnot st.led_state) ∧
    ((app_main_setup st).last_state = st.last_state ∧
      (app_main_setup st).led_state = st.led_state) :=
  ⟨⟨rfl, rfl, rfl⟩, ⟨rfl, rfl⟩, ⟨rfl, rfl⟩⟩

/-! ## The sequence of LED writes -/

theorem cnot_cnot_cnot (x : Int) : cnot (cnot (cnot x)) = cnot x := by
  by_cases h : x = 0 <;> simp [cnot, h]

theorem alternate_shift (l : Int) (i : Nat) :
    (if (i + 1) % 2 = 0 then cnot l else cnot (cnot l)) =
      (if i % 2 = 0 then cnot (cnot l) else cnot (cnot (cnot l))) := by
  rcases Nat.mod_two_eq_zero_or_one i with h | h
  · have h' : (i + 1) % 2 = 1 := by omega
    simp [h, h']
  · have h' : (i + 1) % 2 = 0 := by omega
    simp [h, h', cnot_cnot_cnot]

theorem run_loop_level_writes_values (pd : Nat → Nat) (st : State) (ss : List Int) :
    level_writes (run_loop pd st ss).trace =
      level_writes st.trace ++
        (List.range (fire_count (loop_fired pd st ss))).map
          (fun i => (LED_PIN, if i % 2 = 0 then cnot st.led_state else cnot (cnot st.led_state))) := by
  induction ss generalizing st with
  | nil => simp [run_loop, loop_fired, fire_count]
  | cons s rest ih =>
    rw [run_loop_cons, ih, loop_fired, fire_count_cons, loop_body_trace, level_writes_append,
      loop_body_led_state]
    cases hf : truthy (loop_poll st s).1
    · simp [iter_events_quiet pd st s hf, level_writes]
    · simp only [iter_events_fired pd st s hf, level_writes, if_true, List.range_succ_eq_map,
        List.map_cons, List.map_map, List.append_assoc, List.singleton_append]
      congr 2
      apply List.map_congr_left
      intro i _
      simp only [Function.comp, Nat.succ_eq_add_one, alternate_shift]

/-- C12: for every sample sequence run through `app_main` (or through the loop alone
from the initial state), the writes to output lines are all on `LED_PIN = 5`, there is
exactly one per poll on which the detector fired, and the written values alternate
`1, 0, 1, 0, ...` starting with `1`. -/
theorem led_writes_alternate (pd : Nat → Nat) (samples : List Int) :
    level_writes (app_main pd samples).trace =
      (List.range (fire_count (loop_fired pd (app_main_setup State.initial) samples))).map
        (fun i => (5, if i % 2 = 0 then 1 else 0)) ∧
    (level_writes (app_main pd samples).trace).length =
      fire_count (loop_fired pd (app_main_setup State.initial) samples) ∧
    level_writes (run_loop pd State.initial samples).trace =
      (List.range (fire_count (loop_fired pd State.initial samples))).map
        (fun i => (5, if i % 2 = 0 then 1 else 0)) := by
  have h1 : level_writes (app_main pd samples).trace =
      (List.range (fire_count (loop_fired pd (app_main_setup State.initial) samples))).map
        (fun i => (5, if i % 2 = 0 then 1 else 0)) := by
    rw [app_main, run_loop_level_writes_values]
    rfl
  refine ⟨h1, ?_, ?_⟩
  · rw [h1]
    simp
  · rw [run_loop_level_writes_values]
    rfl

/-! ## No two consecutive detections -/

theorem run_loop_append (pd : Nat → Nat) (st : State) (a b : List Int) :
    run_loop pd st (a ++ b) = run_loop pd (run_loop pd st a) b := by
  simp [run_loop, List.foldl_append]

theorem feed_no_consecutive (st : State) (ss : List Int) (i : Nat) :
    ¬ (truthy ((feed st ss).1.getD i 0) = true ∧ truthy ((feed st ss).1.getD (i + 1) 0) = true) := by
  rintro ⟨h1, h2⟩
  by_cases hi : i + 1 < ss.length
  · rw [feed_getD st ss i (by omega)] at h1
    rw [feed_getD st ss (i + 1) hi] at h2
    by_cases hs : ss.getD i 0 = 0
    · rw [if_neg (fun h => h.2 hs)] at h1
      simp [truthy] at h1
    · rw [if_neg (fun h => hs h.1)] at h2
      simp [truthy] at h2
  · have hlen : (feed st ss).1.length ≤ i + 1 := by
      rw [feed_length]
      omega
    rw [List.getD_eq_default _ _ hlen] at h2
    simp [truthy] at h2

theorem feed_fire_count_bound (st : State) (ss : List Int) :
    fire_count (feed st ss).1 ≤ (ss.length + (if st.last_state = 0 then 1 else 0)) / 2 := by
  induction ss generalizing st with
  | nil => simp [feed, fire_count]
  | cons s rest ih =>
    have step := ih (button_pressed s st).2
    rw [button_pressed_state] at step
    have hfeed : (feed st (s :: rest)).1 =
        (button_pressed s st).1 :: (feed ⟨s, st.led_state, st.trace⟩ rest).1 := rfl
    rw [hfeed, fire_count_cons, button_pressed_ret, List.length_cons]
    by_cases hp : st.last_state = 0 <;> by_cases hs : s = 0 <;>
      simp [hp, hs, truthy] at step ⊢ <;> omega

/-- C13: for every starting state and sample sequence, the detector never fires on two
consecutive polls; hence it fires at most `ceil(n/2)` times over `n` polls, and over
any window of `n` consecutive polls of a run the LED line is written at most
`ceil(n/2)` times. -/
theorem no_consecutive_fires (pd : Nat → Nat) (st : State) (pre window : List Int) (i : Nat) :
    ¬ (truthy ((loop_fired pd st window).getD i 0) = true ∧
        truthy ((loop_fired pd st window).getD (i + 1) 0) = true) ∧
    fire_count (loop_fired pd st window) ≤ (window.length + 1) / 2 ∧
    (level_writes (run_loop pd st (pre ++ window)).trace).length ≤
      (level_writes (run_loop pd st pre).trace).length + (window.length + 1) / 2 := by
  have hbound : ∀ st' : State, fire_count (loop_fired pd st' window) ≤ (window.length + 1) / 2 := by
    intro st'
    rw [loop_fired_eq_feed]
    have hb := feed_fire_count_bound st' window
    have hmono : (window.length + (if st'.last_state = 0 then 1 else 0)) / 2 ≤
        (window.length + 1) / 2 := by
      apply Nat.div_le_div_right
      split <;> omega
    omega
  refine ⟨?_, hbound st, ?_⟩
  · rw [loop_fired_eq_feed]
    exact feed_no_consecutive st window i
  · rw [run_loop_append, run_loop_level_writes]
    have := hbound (run_loop pd st pre)
    omega

/-! ## Ranges of the stored values -/

theorem cnot_range (x : Int) : cnot x = 0 ∨ cnot x = 1 := by
  by_cases h : x = 0 <;> simp [cnot, h]

theorem button_pressed_ret_range (s : Int) (st : State) :
    (button_pressed s st).1 = 0 ∨ (button_pressed s st).1 = 1 := by
  rw [button_pressed_ret]
  split <;> simp

theorem loop_fired_range (pd : Nat → Nat) (st : State) (ss : List Int) :
    ∀ r ∈ loop_fired pd st ss, r = 0 ∨ r = 1 := by
  induction ss generalizing st with
  | nil => simp [loop_fired]
  | cons s rest ih =>
    intro r hr
    rw [loop_fired, List.mem_cons] at hr
    rcases hr with hr | hr
    · rw [hr]
      exact button_pressed_ret_range s _
    · exact ih _ r hr

theorem run_loop_led_range (pd : Nat → Nat) (st : State) (ss : List Int)
    (h : st.led_state = 0 ∨ st.led_state = 1) :
    (run_loop pd st ss).led_state = 0 ∨ (run_loop pd st ss).led_state = 1 := by
  induction ss generalizing st with
  | nil => exact h
  | cons s rest ih =>
    rw [run_loop_cons]
    apply ih
    rw [loop_body_led_state]
    split
    · exact cnot_range _
    · exact h

theorem run_loop_last_range (pd : Nat → Nat) (st : State) (ss : List Int)
    (h : st.last_state = 0 ∨ st.last_state = 1) (hall : ∀ x ∈ ss, x = 0 ∨ x = 1) :
    (run_loop pd st ss).last_state = 0 ∨ (run_loop pd st ss).last_state = 1 := by
  induction ss generalizing st with
  | nil => exact h
  | cons s rest ih =>
    rw [run_loop_cons]
    apply ih
    · rw [loop_body_last_state]
      exact hall s (by simp)
    · exact fun x hx => hall x (by simp [hx])

/-- C15: range invariant.  After `app_main` has consumed any sequence of `int` samples,
`led_state` is `0` or `1`, and every value the detector returned is `0` or `1`; from
any state at all `button_pressed` returns `0` or `1` and `toggle_led` stores `0` or
`1`; and when every sample is `0` or `1`, `last_state` is `0` or `1` too. -/
theorem range_invariant (pd : Nat → Nat) (samples : List Int) (st : State) (s : Int) :
    ((app_main pd samples).led_state = 0 ∨ (app_main pd samples).led_state = 1) ∧
    (∀ r ∈ loop_fired pd (app_main_setup State.initial) samples, r = 0 ∨ r = 1) ∧
    ((button_pressed s st).1 = 0 ∨ (button_pressed s st).1 = 1) ∧
    ((toggle_led st).led_state = 0 ∨ (toggle_led st).led_state = 1) ∧
    ((∀ x ∈ samples, x = 0 ∨ x = 1) →
      ((app_main pd samples).last_state = 0 ∨ (app_main pd samples).last_state = 1)) :=
  ⟨run_loop_led_range pd _ samples (Or.inl rfl),
   loop_fired_range pd _ samples,
   button_pressed_ret_range s st,
   cnot_range _,
   fun hall => run_loop_last_range pd _ samples (Or.inl rfl) hall⟩

/-- The range invariant at a concrete input: the samples `[0, 1, 1]`, all `0` or `1`,
leave `last_state` at `0` or `1`. -/
theorem range_invariant_witness :
    (∀ x ∈ ([0, 1, 1] : List Int), x = 0 ∨ x = 1) ∧
    ((app_main ticks_100hz [0, 1, 1]).last_state = 0 ∨
      (app_main ticks_100hz [0, 1, 1]).last_state = 1) :=
  ⟨by decide, (range_invariant ticks_100hz [0, 1, 1] State.initial 1).2.2.2.2 (by decide)⟩

/-! ## Toggling twice -/

/-- C16: involution.  For every state whose `led_state` is `0` or `1`, two calls of
`toggle_led` restore `led_state`, and the two values written to the LED line are the
negation of that value followed by that value. -/
theorem toggle_led_twice (st : State) (h : st.led_state = 0 ∨ st.led_state = 1) :
    (toggle_led (toggle_led st)).led_state = st.led_state ∧
    (toggle_led (toggle_led st)).trace =
      st.trace ++ [Event.gpio_set_level 5 (cnot st.led_state),
                   Event.gpio_set_level 5 st.led_state] ∧
    level_writes ((toggle_led (toggle_led st)).trace.drop st.trace.length) =
      [(5, cnot st.led_state), (5, st.led_state)] := by
  have hback : cnot (cnot st.led_state) = st.led_state := by
    rcases h with h | h <;> simp [cnot, h]
  have htrace : (toggle_led (toggle_led st)).trace =
      st.trace ++ [Event.gpio_set_level 5 (cnot st.led_state),
                   Event.gpio_set_level 5 st.led_state] := by
    simp [toggle_led, State.emit, hback, LED_PIN]
  refine ⟨hback, htrace, ?_⟩
  rw [htrace]
  simp [level_writes]

/-- The involution at a concrete input: two toggles from the initial state. -/
theorem toggle_led_twice_witness :
    (State.initial.led_state = 0 ∨ State.initial.led_state = 1) ∧
    ((toggle_led (toggle_led State.initial)).led_state = State.initial.led_state ∧
    (toggle_led (toggle_led State.initial)).trace =
      State.initial.trace ++ [Event.gpio_set_level 5 (cnot State.initial.led_state),
                   Event.gpio_set_level 5 State.initial.led_state] ∧
    level_writes ((toggle_led (toggle_led State.initial)).trace.drop State.initial.trace.length) =
      [(5, cnot State.initial.led_state), (5, State.initial.led_state)]) :=
  ⟨by decide, toggle_led_twice State.initial (by decide)⟩

end ButtonLed
